import Mathlib

/-!
Shallow embedding of the monthly commission calculation engine of the
BWC-Portal backend (`routers/sales.py`, `models.py`, `schemas.py`).

Monetary values (SQLAlchemy `Numeric` columns, loaded as Python `Decimal`)
are embedded as `ℚ`: every arithmetic operation the routine performs on
them (`+`, `*`, `/ 100`) is exact in `Decimal` at the scales involved, so
`ℚ` is value-faithful.  The Python-level numeric *representation* (which
expressions are `int`, `Decimal` or binary `float`) is tracked separately
by the `PyNumKind` development further down.

Dates (`datetime.date`) are embedded as year/month/day triples with the
Gregorian validity check performed by the `date` constructor; an invalid
constructor call (`ValueError`) is embedded as `none`.
-/

namespace BWCPortal

/-- `models.SaleType` (models.py lines 39-45). -/
inductive SaleType
  | store_opening
  | renovation
  | maintenance_contract
  | consulting
  | car_rental
  | other
deriving DecidableEq, Repr

/-- `models.SaleStatus` (models.py lines 47-53). -/
inductive SaleStatus
  | lead
  | proposal_sent
  | negotiating
  | closed_won
  | closed_lost
  | cancelled
deriving DecidableEq, Repr

/-- `models.CommissionStatus` (models.py lines 55-59). -/
inductive CommissionStatus
  | pending
  | calculated
  | paid
  | disputed
deriving DecidableEq, Repr

/-- A calendar date, as `datetime.date`. -/
structure YMD where
  year : Int
  month : Int
  day : Int
deriving DecidableEq, Repr

/-- Gregorian leap-year rule used by `datetime.date`. -/
def isLeapYear (y : Int) : Bool :=
  y % 4 == 0 && (y % 100 != 0 || y % 400 == 0)

/-- Number of days in a month of the proleptic Gregorian calendar. -/
def daysInMonth (y m : Int) : Int :=
  if m == 2 then (if isLeapYear y then 29 else 28)
  else if m == 4 || m == 6 || m == 9 || m == 11 then 30
  else 31

/-- `datetime.date(y, m, d)`: returns `none` exactly when the constructor
raises `ValueError` (year outside 1..9999, month outside 1..12, or day
outside the month). -/
def dateMk (y m d : Int) : Option YMD :=
  if 1 ≤ y ∧ y ≤ 9999 ∧ 1 ≤ m ∧ m ≤ 12 ∧ 1 ≤ d ∧ d ≤ daysInMonth y m then
    some ⟨y, m, d⟩
  else
    none

/-- Lexicographic date comparison, as comparison of `date` values. -/
def YMD.le (a b : YMD) : Bool :=
  decide (a.year < b.year) ||
    (a.year == b.year &&
      (decide (a.month < b.month) || (a.month == b.month && decide (a.day ≤ b.day))))

/-- `d - relativedelta(days=1)`: the previous calendar day. -/
def prevDay (d : YMD) : YMD :=
  if 1 < d.day then ⟨d.year, d.month, d.day - 1⟩
  else if 1 < d.month then ⟨d.year, d.month - 1, daysInMonth d.year (d.month - 1)⟩
  else ⟨d.year - 1, 12, 31⟩

/-- Date-range computation of `calculate_monthly_commission`
(sales.py lines 167-172):
`start_date = date(year, month, 1)`; `end_date` is the first day of the
next month minus one day (the December case rolls the year over).  `none`
embeds an uncaught `ValueError` from the `date` constructor. -/
def monthRange (year month : Int) : Option (YMD × YMD) := do
  let start_date ← dateMk year month 1
  let next_first ← if month == 12 then dateMk (year + 1) 1 1 else dateMk year (month + 1) 1
  pure (start_date, prevDay next_first)

/-- `models.EmployeeCommissionRule` (models.py lines 404-434): the columns
the calculator reads.  `Numeric` columns are `ℚ`; nullable columns are
`Option`.  `effective_from` has a non-null default; `effective_until` is
nullable. -/
structure EmployeeCommissionRule where
  id : Nat
  employee_id : Nat
  sale_type : Option SaleType
  base_commission_rate : ℚ
  min_sale_amount : ℚ
  tier1_threshold : Option ℚ
  tier1_bonus_rate : ℚ
  tier2_threshold : Option ℚ
  tier2_bonus_rate : ℚ
  tier3_threshold : Option ℚ
  tier3_bonus_rate : ℚ
  is_active : Bool
  effective_from : Int
  effective_until : Option Int
deriving DecidableEq, Repr

/-- `models.Sale` (models.py lines 338-402): the columns the calculator
reads or writes. -/
structure Sale where
  id : Nat
  sale_type : SaleType
  status : SaleStatus
  sale_amount : ℚ
  salesperson_id : Nat
  close_date : Option YMD
  commission_rate : ℚ
  commission_amount : Option ℚ
  commission_status : CommissionStatus
deriving DecidableEq, Repr

/-- One value of the `sales_breakdown` dict built at sales.py lines
217-227: running `count`, `total_amount`, `commission` for one sale type. -/
structure BreakdownEntry where
  count : Nat
  total_amount : ℚ
  commission : ℚ
deriving DecidableEq, Repr

/-- The `sales_breakdown` dict, as an insertion-ordered association list
(Python dicts preserve insertion order). -/
abbrev Breakdown := List (SaleType × BreakdownEntry)

/-- `models.MonthlyCommissionSummary` (models.py lines 436-470): the
columns the calculator reads or writes.  `last_updated` is an abstract
clock tick. -/
structure MonthlyCommissionSummary where
  id : Nat
  employee_id : Nat
  year : Int
  month : Int
  total_sales_amount : ℚ
  closed_deals_count : Nat
  active_leads_count : Nat
  base_commission : ℚ
  tier_bonus : ℚ
  total_commission : ℚ
  payment_status : CommissionStatus
  sales_breakdown : Breakdown
  calculated_by_id : Nat
  last_updated : Nat
deriving DecidableEq, Repr

/-- The database state the endpoint touches: user ids, sales, commission
rules, summaries, and the next summary primary key. -/
structure DB where
  users : List Nat
  sales : List Sale
  rules : List EmployeeCommissionRule
  summaries : List MonthlyCommissionSummary
  next_summary_id : Nat
deriving DecidableEq, Repr

/-- `schemas.CommissionCalculationRequest` (schemas.py lines 556-560). -/
structure CommissionCalculationRequest where
  employee_id : Nat
  year : Int
  month : Int
  recalculate : Bool
deriving DecidableEq, Repr

/-- Pydantic validation of `CommissionCalculationRequest`: the schema
declares plain `int`/`bool` fields with no `Field` constraints, so every
well-typed request passes validation unchanged. -/
def requestValidate (r : CommissionCalculationRequest) :
    Option CommissionCalculationRequest :=
  some r

/-- The error outcomes of `calculate_monthly_commission`. -/
inductive CalcError
  /-- `HTTPException(404, "Employee not found")` -/
  | notFound
  /-- `HTTPException(400, "No commission rules found for this employee")` -/
  | invalidState
  /-- uncaught `ValueError` raised by `datetime.date` -/
  | valueError
deriving DecidableEq, Repr

/-- The inner test of the rule loop (sales.py lines 203-206): the rule's
`sale_type` is `None` (wildcard) or equals the sale's type, and the sale
amount meets the rule's `min_sale_amount`.  A rule failing either test is
skipped and the loop continues, so the loop as a whole finds the first
rule satisfying the conjunction. -/
def ruleMatches (rule : EmployeeCommissionRule) (sale : Sale) : Bool :=
  (rule.sale_type == none || rule.sale_type == some sale.sale_type) &&
    decide (sale.sale_amount ≥ rule.min_sale_amount)

/-- The `applicable_rule` search (sales.py lines 201-207): the first rule,
in stored order, that matches the sale. -/
def findApplicableRule (commission_rules : List EmployeeCommissionRule) (sale : Sale) :
    Option EmployeeCommissionRule :=
  commission_rules.find? (fun rule => ruleMatches rule sale)

/-- One `sales_breakdown[sale_type_key]` update (sales.py lines 217-227):
insert the key with zero counters if absent, then add the sale's count,
amount and commission to its entry.  Python dicts keep insertion order
and update in place. -/
def breakdownAdd : Breakdown → SaleType → ℚ → ℚ → Breakdown
  | [], t, amount, commission => [(t, ⟨1, amount, commission⟩)]
  | (t', e) :: rest, t, amount, commission =>
    if t' == t then
      (t', ⟨e.count + 1, e.total_amount + amount, e.commission + commission⟩) :: rest
    else
      (t', e) :: breakdownAdd rest t amount commission

/-- The running state of the per-sale loop (sales.py lines 196-227):
accumulated `base_commission`, the `sales_breakdown` dict, and the
commission written onto each matched sale (recorded as
`(sale.id, commission)`; applying an update sets `commission_amount` and
sets `commission_status` to `calculated`). -/
structure SaleLoopState where
  base_commission : ℚ
  sales_breakdown : Breakdown
  saleUpdates : List (Nat × ℚ)
deriving DecidableEq, Repr

/-- One iteration of the per-sale loop (sales.py lines 200-227): find the
applicable rule; on a match, `commission = (sale_amount * base_commission_rate) / 100`
is accumulated into `base_commission`, the sale's commission fields are
updated, and the breakdown entry for the sale's type is bumped; with no
match the sale is left untouched. -/
def processSale (commission_rules : List EmployeeCommissionRule)
    (st : SaleLoopState) (sale : Sale) : SaleLoopState :=
  match findApplicableRule commission_rules sale with
  | some applicable_rule =>
    let commission := sale.sale_amount * applicable_rule.base_commission_rate / 100
    { base_commission := st.base_commission + commission
      sales_breakdown := breakdownAdd st.sales_breakdown sale.sale_type sale.sale_amount commission
      saleUpdates := st.saleUpdates ++ [(sale.id, commission)] }
  | none => st

/-- The whole per-sale loop, starting from `base_commission = 0` and an
empty breakdown dict (sales.py lines 195-227). -/
def processSales (commission_rules : List EmployeeCommissionRule)
    (closed_sales : List Sale) : SaleLoopState :=
  closed_sales.foldl (processSale commission_rules) ⟨0, [], []⟩

/-- Python truthiness gate of a tier (sales.py lines 230-236):
`rule.tierN_threshold and total_sales_amount >= rule.tierN_threshold`.
`None` is falsy and so is `Decimal` zero; any non-null non-zero threshold
is then compared against the total. -/
def tierHit (threshold : Option ℚ) (total_sales_amount : ℚ) : Bool :=
  match threshold with
  | none => false
  | some t => !(t == 0) && decide (total_sales_amount ≥ t)

/-- One rule's contribution to the tier loop (sales.py lines 229-237):
each of the three tiers is tested independently and, when hit, adds
`(total_sales_amount * tierN_bonus_rate) / 100` to the accumulator. -/
def tierStep (total_sales_amount : ℚ) (acc : ℚ) (rule : EmployeeCommissionRule) : ℚ :=
  let acc := if tierHit rule.tier1_threshold total_sales_amount then
      acc + total_sales_amount * rule.tier1_bonus_rate / 100 else acc
  let acc := if tierHit rule.tier2_threshold total_sales_amount then
      acc + total_sales_amount * rule.tier2_bonus_rate / 100 else acc
  if tierHit rule.tier3_threshold total_sales_amount then
      acc + total_sales_amount * rule.tier3_bonus_rate / 100 else acc

/-- The tier-bonus loop (sales.py lines 229-237): `tier_bonus` starts at 0
and every active rule's tiers accumulate into it. -/
def tierBonus (commission_rules : List EmployeeCommissionRule)
    (total_sales_amount : ℚ) : ℚ :=
  commission_rules.foldl (tierStep total_sales_amount) 0

/-- The active-rule query (sales.py lines 157-161): all rules of the
employee with `is_active == True`, in stored order. -/
def activeRulesFor (db : DB) (employee_id : Nat) : List EmployeeCommissionRule :=
  db.rules.filter (fun r => r.employee_id == employee_id && r.is_active)

/-- The existing-summary query (sales.py lines 143-147): first summary row
with the requested employee, year and month. -/
def findSummary (db : DB) (employee_id : Nat) (year month : Int) :
    Option MonthlyCommissionSummary :=
  db.summaries.find? (fun s =>
    s.employee_id == employee_id && s.year == year && s.month == month)

/-- The closed-sales query (sales.py lines 174-180): sales of the employee
with status `closed_won` and `close_date` between `start_date` and
`end_date` inclusive (a SQL NULL `close_date` satisfies neither bound). -/
def closedSalesFor (db : DB) (employee_id : Nat) (start_date end_date : YMD) :
    List Sale :=
  db.sales.filter (fun sale =>
    sale.salesperson_id == employee_id && sale.status == SaleStatus.closed_won &&
      (match sale.close_date with
       | some d => YMD.le start_date d && YMD.le d end_date
       | none => false))

/-- The active-leads count (sales.py lines 182-190): sales of the employee
whose status is `lead`, `proposal_sent` or `negotiating`. -/
def activeLeadsCount (db : DB) (employee_id : Nat) : Nat :=
  (db.sales.filter (fun s =>
    s.salesperson_id == employee_id &&
      (s.status == SaleStatus.lead || s.status == SaleStatus.proposal_sent ||
        s.status == SaleStatus.negotiating))).length

/-- Writing a computed commission onto a sale (sales.py lines 213-215):
`sale.commission_amount = commission; sale.commission_status = calculated`. -/
def setCommission (sale : Sale) (commission : ℚ) : Sale :=
  { sale with commission_amount := some commission
              commission_status := CommissionStatus.calculated }

/-- Applying the per-sale mutations of the loop back to the sales table:
each `(id, commission)` pair updates the sale object with that id. -/
def applySaleUpdates (sales : List Sale) (updates : List (Nat × ℚ)) : List Sale :=
  updates.foldl
    (fun ss u => ss.map (fun s => if s.id == u.1 then setCommission s u.2 else s))
    sales

/-- The aggregate quantities computed at sales.py lines 192-239 from the
active rules and the month's closed sales. -/
structure ComputedTotals where
  total_sales_amount : ℚ
  closed_deals_count : Nat
  base_commission : ℚ
  tier_bonus : ℚ
  total_commission : ℚ
  sales_breakdown : Breakdown
  saleUpdates : List (Nat × ℚ)
deriving DecidableEq, Repr

/-- Sales.py lines 192-239: `total_sales_amount = sum(sale.sale_amount ...)`,
`closed_deals_count = len(closed_sales)`, the per-sale loop, the tier loop,
and `total_commission = base_commission + tier_bonus`. -/
def computeTotals (commission_rules : List EmployeeCommissionRule)
    (closed_sales : List Sale) : ComputedTotals :=
  let total_sales_amount := (closed_sales.map Sale.sale_amount).sum
  let st := processSales commission_rules closed_sales
  let tb := tierBonus commission_rules total_sales_amount
  { total_sales_amount := total_sales_amount
    closed_deals_count := closed_sales.length
    base_commission := st.base_commission
    tier_bonus := tb
    total_commission := st.base_commission + tb
    sales_breakdown := st.sales_breakdown
    saleUpdates := st.saleUpdates }

/-- The summary-field assignment block (sales.py lines 252-261): overwrite
the summary's data fields with the computed values and bump `last_updated`.
The key fields (`employee_id`, `year`, `month`), `payment_status` and
`calculated_by_id` are not touched. -/
def setSummaryData (s : MonthlyCommissionSummary) (c : ComputedTotals)
    (active_leads now : Nat) : MonthlyCommissionSummary :=
  { s with total_sales_amount := c.total_sales_amount
           closed_deals_count := c.closed_deals_count
           active_leads_count := active_leads
           base_commission := c.base_commission
           tier_bonus := c.tier_bonus
           total_commission := c.total_commission
           sales_breakdown := c.sales_breakdown
           last_updated := now }

/-- The summary row created when none exists for the key
(sales.py lines 244-250): key fields and `calculated_by_id` from the
request, every other column at its model default. -/
def freshSummary (db : DB) (employee_id : Nat) (year month : Int)
    (current_user_id now : Nat) : MonthlyCommissionSummary :=
  { id := db.next_summary_id
    employee_id := employee_id
    year := year
    month := month
    total_sales_amount := 0
    closed_deals_count := 0
    active_leads_count := 0
    base_commission := 0
    tier_bonus := 0
    total_commission := 0
    payment_status := CommissionStatus.pending
    sales_breakdown := []
    calculated_by_id := current_user_id
    last_updated := now }

/-- The recomputation path of `calculate_monthly_commission`
(sales.py lines 157-268), entered when no summary exists or
`recalculate` is set: query active rules (abort 400 when none), compute
the month's date range (`date` raises `ValueError` on bad input), query
closed sales and active leads, run the sale and tier loops, then upsert —
the existing row is updated in place when `existing` is passed, otherwise
a fresh row (with the model's column defaults) is created and filled. -/
def recompute (db : DB) (employee_id : Nat) (year month : Int)
    (existing : Option MonthlyCommissionSummary) (current_user_id now : Nat) :
    Except CalcError (DB × MonthlyCommissionSummary) :=
  let commission_rules := activeRulesFor db employee_id
  if commission_rules.isEmpty then
    .error .invalidState
  else
    match monthRange year month with
    | none => .error .valueError
    | some (start_date, end_date) =>
      let closed_sales := closedSalesFor db employee_id start_date end_date
      let active_leads := activeLeadsCount db employee_id
      let c := computeTotals commission_rules closed_sales
      match existing with
      | some e =>
        let summary := setSummaryData e c active_leads now
        .ok ({ db with
                sales := applySaleUpdates db.sales c.saleUpdates
                summaries := db.summaries.map
                  (fun s => if s.id == e.id then summary else s) },
             summary)
      | none =>
        let summary := setSummaryData
          (freshSummary db employee_id year month current_user_id now) c active_leads now
        .ok ({ db with
                next_summary_id := db.next_summary_id + 1
                sales := applySaleUpdates db.sales c.saleUpdates
                summaries := db.summaries ++ [summary] },
             summary)

/-- `calculate_monthly_commission` (sales.py lines 124-268): verify the
employee exists (404 otherwise); if a summary for (employee, year, month)
already exists and `recalculate` is false, return it unchanged; otherwise
recompute. -/
def calculate_monthly_commission (db : DB) (req : CommissionCalculationRequest)
    (current_user_id now : Nat) :
    Except CalcError (DB × MonthlyCommissionSummary) :=
  if db.users.contains req.employee_id then
    match findSummary db req.employee_id req.year req.month with
    | some existing_summary =>
      if req.recalculate then
        recompute db req.employee_id req.year req.month (some existing_summary)
          current_user_id now
      else
        .ok (db, existing_summary)
    | none =>
      recompute db req.employee_id req.year req.month none current_user_id now
  else
    .error .notFound

/-- Request-level semantics: a raised exception aborts the handler before
`db.commit()`, so the session's uncommitted changes are discarded and the
database is unchanged on every error outcome. -/
def runCalc (db : DB) (req : CommissionCalculationRequest)
    (current_user_id now : Nat) :
    DB × Except CalcError MonthlyCommissionSummary :=
  match calculate_monthly_commission db req current_user_id now with
  | .ok (db', s) => (db', .ok s)
  | .error e => (db, .error e)

/-- The Python runtime numeric type of an expression in
`calculate_monthly_commission`: `int` literals, `Decimal` values loaded
from `Numeric` columns, or binary `float`. -/
inductive PyNumKind
  | intK
  | decimalK
  | floatK
deriving DecidableEq, Repr

/-- Result type of Python binary arithmetic (`+`, `*`, `/`) between the
numeric types occurring in this routine: `int` combined with another type
coerces to that type; `Decimal` with `Decimal` stays `Decimal`; `float`
with `int` or `float` stays `float`.  (`Decimal` never meets `float` in
this routine.) -/
def pyJoin : PyNumKind → PyNumKind → PyNumKind
  | .intK, k => k
  | k, .intK => k
  | .decimalK, .decimalK => .decimalK
  | .floatK, _ => .floatK
  | _, .floatK => .floatK

/-- Type of `(sale.sale_amount * applicable_rule.base_commission_rate) / 100`
(sales.py line 210): `Numeric` columns load as `Decimal`, the literal
`100` is an `int`. -/
def perSaleCommissionKind : PyNumKind :=
  pyJoin (pyJoin .decimalK .decimalK) .intK

/-- Type of `base_commission` after the sale loop (sales.py lines 195,
211): the literal `int` 0, accumulating one per-sale commission per
matched sale. -/
def baseCommissionKind (matched : Nat) : PyNumKind :=
  (List.range matched).foldl (fun k _ => pyJoin k perSaleCommissionKind) .intK

/-- Type of a breakdown bucket's `total_amount` or `commission` after `n`
contributing sales (sales.py lines 220-227): the literal `int` 0,
accumulating `float(sale.sale_amount)` resp. `float(commission)` — an
explicit conversion to binary floating point. -/
def breakdownAmountKind (n : Nat) : PyNumKind :=
  (List.range n).foldl (fun k _ => pyJoin k .floatK) .intK

/-- Type of `tier_bonus` after the tier loop (sales.py lines 229-237): the
literal `int` 0, accumulating `(total_sales_amount * tierN_bonus_rate) / 100`
once per hit tier. -/
def tierBonusKind (hits : Nat) : PyNumKind :=
  (List.range hits).foldl
    (fun k _ => pyJoin k (pyJoin (pyJoin .decimalK .decimalK) .intK)) .intK

/-- Type of `total_commission = base_commission + tier_bonus`
(sales.py line 239). -/
def totalCommissionKind (matched hits : Nat) : PyNumKind :=
  pyJoin (baseCommissionKind matched) (tierBonusKind hits)

/-- Spec-side tier contribution, following the spec's words: a tier whose
threshold is *present* contributes `total × rate / 100` whenever the total
meets the threshold; an absent (null) threshold contributes nothing.  To
be compared with the source-side `tierHit`/`tierStep`. -/
def tierPartSpec (threshold : Option ℚ) (rate total_sales_amount : ℚ) : ℚ :=
  match threshold with
  | some t => if t ≤ total_sales_amount then total_sales_amount * rate / 100 else 0
  | none => 0

/-- Spec-side tier bonus: the sum, over every rule and each of its three
tiers, of the tier's spec-side contribution. -/
def tierBonusSpec (commission_rules : List EmployeeCommissionRule)
    (total_sales_amount : ℚ) : ℚ :=
  (commission_rules.map (fun r =>
    tierPartSpec r.tier1_threshold r.tier1_bonus_rate total_sales_amount +
      tierPartSpec r.tier2_threshold r.tier2_bonus_rate total_sales_amount +
      tierPartSpec r.tier3_threshold r.tier3_bonus_rate total_sales_amount)).sum

/-- Replace every tier threshold that is exactly 0 by a null threshold,
leaving everything else unchanged. -/
def nullifyZeroThresholds (r : EmployeeCommissionRule) : EmployeeCommissionRule :=
  { r with
    tier1_threshold := if r.tier1_threshold == some 0 then none else r.tier1_threshold
    tier2_threshold := if r.tier2_threshold == some 0 then none else r.tier2_threshold
    tier3_threshold := if r.tier3_threshold == some 0 then none else r.tier3_threshold }

/-- Overwrite a rule's effective window with arbitrary values, leaving all
fields the calculator reads unchanged. -/
def setRuleWindow (f : EmployeeCommissionRule → Int × Option Int)
    (r : EmployeeCommissionRule) : EmployeeCommissionRule :=
  { r with effective_from := (f r).1
           effective_until := (f r).2 }

/-- The per-sale commission the claims describe: the first matching rule's
base rate applied to the sale amount, zero when no rule matches. -/
def saleContribution (commission_rules : List EmployeeCommissionRule) (s : Sale) : ℚ :=
  match findApplicableRule commission_rules s with
  | some r => s.sale_amount * r.base_commission_rate / 100
  | none => 0

/-- The mutation the per-sale loop records for one sale: `none` when no
rule matches, otherwise the sale id paired with its computed commission. -/
def saleUpd (commission_rules : List EmployeeCommissionRule) (s : Sale) :
    Option (Nat × ℚ) :=
  (findApplicableRule commission_rules s).map
    (fun r => (s.id, s.sale_amount * r.base_commission_rate / 100))

/-- The net effect of the loop on one sale object: commission fields set
from the first matching rule, or the sale unchanged when none matches. -/
def applyRuleCommission (commission_rules : List EmployeeCommissionRule)
    (s : Sale) : Sale :=
  match findApplicableRule commission_rules s with
  | some r => setCommission s (s.sale_amount * r.base_commission_rate / 100)
  | none => s

/-- The uniqueness key of a summary row: (employee, year, month). -/
def summaryKey (s : MonthlyCommissionSummary) : Nat × Int × Int :=
  (s.employee_id, s.year, s.month)

/-- At most one summary row per (employee, year, month) key. -/
def atMostOnePerKey (l : List MonthlyCommissionSummary) : Prop :=
  (l.map summaryKey).Nodup

/-- Everything observable about a calculation result except the stored
rule rows themselves: the users, sales, summaries and id counter of the
resulting database, plus the returned summary. -/
def calcView (p : DB × MonthlyCommissionSummary) :
    List Nat × List Sale × List MonthlyCommissionSummary × Nat ×
      MonthlyCommissionSummary :=
  (p.1.users, p.1.sales, p.1.summaries, p.1.next_summary_id, p.2)

/-- Fixture: a wildcard 10% rule for employee 1 with a 500 minimum. -/
def exRuleBase : EmployeeCommissionRule :=
  { id := 1
    employee_id := 1
    sale_type := none
    base_commission_rate := 10
    min_sale_amount := 500
    tier1_threshold := none
    tier1_bonus_rate := 0
    tier2_threshold := none
    tier2_bonus_rate := 0
    tier3_threshold := none
    tier3_bonus_rate := 0
    is_active := true
    effective_from := 0
    effective_until := none }

/-- Fixture: the spec's worked tier configuration — thresholds
10000/20000/30000 with bonus rates 2/3/5. -/
def exRuleTiered : EmployeeCommissionRule :=
  { exRuleBase with
    tier1_threshold := some 10000
    tier1_bonus_rate := 2
    tier2_threshold := some 20000
    tier2_bonus_rate := 3
    tier3_threshold := some 30000
    tier3_bonus_rate := 5 }

/-- Fixture: a closed-won consulting sale of 1000 for employee 1, closed
2025-06-15. -/
def exSale1000 : Sale :=
  { id := 1
    sale_type := SaleType.consulting
    status := SaleStatus.closed_won
    sale_amount := 1000
    salesperson_id := 1
    close_date := some ⟨2025, 6, 15⟩
    commission_rate := 10
    commission_amount := none
    commission_status := CommissionStatus.pending }

/-- Fixture: a closed-won sale of 100, below the 500 minimum. -/
def exSale100 : Sale :=
  { exSale1000 with id := 2, sale_amount := 100 }

/-- Fixture: a database with employee 1, admin user 9, one rule and one
sale, and no summaries. -/
def exDB : DB :=
  { users := [1, 9]
    sales := [exSale1000]
    rules := [exRuleBase]
    summaries := []
    next_summary_id := 1 }

/-- Fixture: a summary row for employee 1, June 2025. -/
def exSummary : MonthlyCommissionSummary :=
  { id := 1
    employee_id := 1
    year := 2025
    month := 6
    total_sales_amount := 1000
    closed_deals_count := 1
    active_leads_count := 0
    base_commission := 100
    tier_bonus := 0
    total_commission := 100
    payment_status := CommissionStatus.pending
    sales_breakdown := [(SaleType.consulting, ⟨1, 1000, 100⟩)]
    calculated_by_id := 9
    last_updated := 5 }

/-- Fixture: `exDB` with the June-2025 summary already present. -/
def exDBWithSummary : DB :=
  { exDB with summaries := [exSummary], next_summary_id := 2 }

/-- Fixture: a calculation request for employee 1, June 2025. -/
def exReq : CommissionCalculationRequest :=
  { employee_id := 1, year := 2025, month := 6, recalculate := false }

/-- Fixture: the same request with the out-of-range month 13. -/
def exReqMonth13 : CommissionCalculationRequest :=
  { exReq with month := 13 }

/-- Fixture: a database without employee 1. -/
def exDBNoEmployee : DB :=
  { exDB with users := [9] }

/-- Fixture: the calculation request with the force-recalculate flag. -/
def exReqRecalc : CommissionCalculationRequest :=
  { exReq with recalculate := true }

/-- Fixture: `exSale1000` after the calculator wrote its commission. -/
def exSaleCalculated : Sale :=
  { exSale1000 with commission_amount := some 100
                    commission_status := CommissionStatus.calculated }

/-- Fixture: `exSummary` after a recalculation at tick 7. -/
def exSummaryRecalc : MonthlyCommissionSummary :=
  { exSummary with last_updated := 7 }

/-- Fixture: `exDBWithSummary` after a forced recalculation at tick 7. -/
def exDBAfterRecalc : DB :=
  { exDBWithSummary with sales := [exSaleCalculated]
                         summaries := [exSummaryRecalc] }

/-! ## Helper lemmas -/

theorem processSale_base_commission (commission_rules : List EmployeeCommissionRule)
    (st : SaleLoopState) (s : Sale) :
    (processSale commission_rules st s).base_commission =
      st.base_commission + saleContribution commission_rules s := by
  cases hf : findApplicableRule commission_rules s <;>
    simp [processSale, saleContribution, hf]

theorem foldl_processSale_base (commission_rules : List EmployeeCommissionRule)
    (l : List Sale) (st : SaleLoopState) :
    (l.foldl (processSale commission_rules) st).base_commission =
      st.base_commission + (l.map (saleContribution commission_rules)).sum := by
  induction l generalizing st with
  | nil => simp
  | cons s rest ih =>
    simp only [List.foldl_cons, List.map_cons, List.sum_cons]
    rw [ih, processSale_base_commission]
    ring

theorem processSales_base_commission (commission_rules : List EmployeeCommissionRule)
    (l : List Sale) :
    (processSales commission_rules l).base_commission =
      (l.map (saleContribution commission_rules)).sum := by
  simp [processSales, foldl_processSale_base]

theorem foldl_processSale_updates (commission_rules : List EmployeeCommissionRule)
    (l : List Sale) (st : SaleLoopState) :
    (l.foldl (processSale commission_rules) st).saleUpdates =
      st.saleUpdates ++ l.filterMap (saleUpd commission_rules) := by
  induction l generalizing st with
  | nil => simp
  | cons s rest ih =>
    simp only [List.foldl_cons, List.filterMap_cons]
    cases hf : findApplicableRule commission_rules s with
    | none => simp [ih, processSale, saleUpd, hf]
    | some r => simp [ih, processSale, saleUpd, hf]

theorem processSales_updates (commission_rules : List EmployeeCommissionRule)
    (l : List Sale) :
    (processSales commission_rules l).saleUpdates =
      l.filterMap (saleUpd commission_rules) := by
  simp [processSales, foldl_processSale_updates]

theorem tierHit_nullify (th : Option ℚ) (total : ℚ) :
    tierHit (if th == some 0 then none else th) total = tierHit th total := by
  by_cases h : th = some 0
  · subst h; simp [tierHit]
  · rw [if_neg (by simpa using h)]

theorem tierStep_nullify (total acc : ℚ) (r : EmployeeCommissionRule) :
    tierStep total acc (nullifyZeroThresholds r) = tierStep total acc r := by
  simp only [tierStep, nullifyZeroThresholds, tierHit_nullify]

theorem foldl_tierStep_nullify (total : ℚ) (l : List EmployeeCommissionRule)
    (acc : ℚ) :
    l.foldl (fun a r => tierStep total a (nullifyZeroThresholds r)) acc =
      l.foldl (tierStep total) acc := by
  induction l generalizing acc with
  | nil => rfl
  | cons r rest ih => simp [tierStep_nullify, ih]

theorem tierStep_split (total acc : ℚ) (r : EmployeeCommissionRule) :
    tierStep total acc r = acc +
      ((if tierHit r.tier1_threshold total then total * r.tier1_bonus_rate / 100 else 0) +
        (if tierHit r.tier2_threshold total then total * r.tier2_bonus_rate / 100 else 0) +
        (if tierHit r.tier3_threshold total then total * r.tier3_bonus_rate / 100 else 0)) := by
  simp only [tierStep]
  split_ifs <;> ring

theorem tierPart_eq_spec (th : Option ℚ) (rate total : ℚ)
    (h : ∀ t : ℚ, th = some t → 0 < t) :
    (if tierHit th total then total * rate / 100 else 0) =
      tierPartSpec th rate total := by
  cases th with
  | none => simp [tierHit, tierPartSpec]
  | some t =>
    have ht : (t == 0) = false := by simpa using (h t rfl).ne'
    by_cases hle : t ≤ total
    · simp [tierHit, tierPartSpec, ht, hle, ge_iff_le]
    · simp [tierHit, tierPartSpec, ht, hle, ge_iff_le]

theorem computeTotals_base (commission_rules : List EmployeeCommissionRule)
    (l : List Sale) :
    (computeTotals commission_rules l).base_commission =
      (processSales commission_rules l).base_commission := rfl

theorem computeTotals_total (commission_rules : List EmployeeCommissionRule)
    (l : List Sale) :
    (computeTotals commission_rules l).total_sales_amount =
      (l.map Sale.sale_amount).sum := rfl

theorem computeTotals_count (commission_rules : List EmployeeCommissionRule)
    (l : List Sale) :
    (computeTotals commission_rules l).closed_deals_count = l.length := rfl

theorem ruleMatches_iff (r : EmployeeCommissionRule) (s : Sale) :
    ruleMatches r s = true ↔
      (r.sale_type = none ∨ r.sale_type = some s.sale_type) ∧
        r.min_sale_amount ≤ s.sale_amount := by
  simp [ruleMatches, ge_iff_le]

theorem setCommission_id (s : Sale) (c : ℚ) : (setCommission s c).id = s.id := rfl

theorem applySaleUpdates_cons (ss : List Sale) (u : Nat × ℚ) (ups : List (Nat × ℚ)) :
    applySaleUpdates ss (u :: ups) =
      applySaleUpdates
        (ss.map (fun s => if s.id == u.1 then setCommission s u.2 else s)) ups := rfl

theorem applySaleUpdates_pointwise (ups : List (Nat × ℚ)) (ss : List Sale)
    (h : (ups.map Prod.fst).Nodup) :
    applySaleUpdates ss ups = ss.map (fun s =>
      match ups.find? (fun u => u.1 == s.id) with
      | some u => setCommission s u.2
      | none => s) := by
  induction ups generalizing ss with
  | nil => simp [applySaleUpdates]
  | cons u ups ih =>
    rw [List.map_cons] at h
    rw [List.nodup_cons] at h
    rw [applySaleUpdates_cons, ih _ h.2, List.map_map]
    apply List.map_congr_left
    intro s _
    by_cases heq : u.1 = s.id
    · have hfnone : ups.find? (fun u' => u'.1 == s.id) = none := by
        rw [List.find?_eq_none]
        intro x hx hxpred
        exact h.1 (by
          rw [← heq] at hxpred
          exact (List.mem_map.mpr ⟨x, hx, by simpa using hxpred⟩))
      simp only [Function.comp_apply, List.find?_cons, heq, beq_self_eq_true]
      simp only [show (s.id == u.1) = true by simp [heq], if_true]
      simp [setCommission_id, hfnone]
    · have h1 : (u.1 == s.id) = false := by simpa using heq
      have h2 : (s.id == u.1) = false := by simpa using (Ne.symm heq)
      have h3 : ¬(s.id = u.1) := fun hh => heq hh.symm
      simp [List.find?_cons, h1, h2, h3]

theorem filterMap_saleUpd_fst (commission_rules : List EmployeeCommissionRule)
    (l : List Sale) :
    (l.filterMap (saleUpd commission_rules)).map Prod.fst =
      (l.filter (fun s => (findApplicableRule commission_rules s).isSome)).map Sale.id := by
  induction l with
  | nil => rfl
  | cons s rest ih =>
    cases hf : findApplicableRule commission_rules s <;>
      simp [List.filterMap_cons, List.filter_cons, saleUpd, hf, ih]

theorem updates_fst_nodup (commission_rules : List EmployeeCommissionRule)
    (l : List Sale) (h : (l.map Sale.id).Nodup) :
    ((l.filterMap (saleUpd commission_rules)).map Prod.fst).Nodup := by
  rw [filterMap_saleUpd_fst]
  exact List.Nodup.sublist (List.Sublist.map Sale.id (List.filter_sublist l)) h

theorem saleUpd_fst (commission_rules : List EmployeeCommissionRule)
    (s : Sale) (u : Nat × ℚ) (h : saleUpd commission_rules s = some u) :
    u.1 = s.id := by
  cases hf : findApplicableRule commission_rules s <;> rw [saleUpd, hf] at h
  · exact absurd h (by simp)
  · simpa using congrArg Prod.fst (Option.some.inj h).symm

theorem setSummaryData_id (s : MonthlyCommissionSummary) (c : ComputedTotals)
    (a n : Nat) : (setSummaryData s c a n).id = s.id := rfl

theorem setSummaryData_key (s : MonthlyCommissionSummary) (c : ComputedTotals)
    (a n : Nat) : summaryKey (setSummaryData s c a n) = summaryKey s := rfl

theorem findSummary_none_key (db : DB) (e : Nat) (y m : Int)
    (h : findSummary db e y m = none) :
    ∀ t ∈ db.summaries, summaryKey t ≠ (e, y, m) := by
  intro t ht hk
  rw [findSummary] at h
  have hb := List.find?_eq_none.mp h t ht
  apply hb
  simp only [summaryKey, Prod.mk.injEq] at hk
  simp [hk.1, hk.2.1, hk.2.2]

theorem findSummary_mem (db : DB) (e : Nat) (y m : Int)
    (s : MonthlyCommissionSummary) (h : findSummary db e y m = some s) :
    s ∈ db.summaries := by
  rw [findSummary] at h
  exact List.mem_of_find?_eq_some h

theorem recompute_rules_empty (db : DB) (eid : Nat) (y m : Int)
    (ex : Option MonthlyCommissionSummary) (u n : Nat)
    (h : (activeRulesFor db eid).isEmpty = true) :
    recompute db eid y m ex u n = .error .invalidState := by
  simp [recompute, h]

theorem recompute_bad_range (db : DB) (eid : Nat) (y m : Int)
    (ex : Option MonthlyCommissionSummary) (u n : Nat)
    (hempty : (activeRulesFor db eid).isEmpty = false)
    (hmr : monthRange y m = none) :
    recompute db eid y m ex u n = .error .valueError := by
  simp [recompute, hempty, hmr]

theorem recompute_update_eq (db : DB) (eid : Nat) (y m : Int)
    (e : MonthlyCommissionSummary) (u n : Nat) (sd ed : YMD)
    (hempty : (activeRulesFor db eid).isEmpty = false)
    (hmr : monthRange y m = some (sd, ed)) :
    recompute db eid y m (some e) u n =
      .ok ({ db with
              sales := applySaleUpdates db.sales
                (computeTotals (activeRulesFor db eid)
                  (closedSalesFor db eid sd ed)).saleUpdates
              summaries := db.summaries.map (fun s =>
                if s.id == e.id then
                  setSummaryData e
                    (computeTotals (activeRulesFor db eid) (closedSalesFor db eid sd ed))
                    (activeLeadsCount db eid) n
                else s) },
        setSummaryData e
          (computeTotals (activeRulesFor db eid) (closedSalesFor db eid sd ed))
          (activeLeadsCount db eid) n) := by
  simp [recompute, hempty, hmr]

theorem recompute_insert_eq (db : DB) (eid : Nat) (y m : Int) (u n : Nat)
    (sd ed : YMD)
    (hempty : (activeRulesFor db eid).isEmpty = false)
    (hmr : monthRange y m = some (sd, ed)) :
    recompute db eid y m none u n =
      .ok ({ db with
              next_summary_id := db.next_summary_id + 1
              sales := applySaleUpdates db.sales
                (computeTotals (activeRulesFor db eid)
                  (closedSalesFor db eid sd ed)).saleUpdates
              summaries := db.summaries ++
                [setSummaryData (freshSummary db eid y m u n)
                  (computeTotals (activeRulesFor db eid) (closedSalesFor db eid sd ed))
                  (activeLeadsCount db eid) n] },
        setSummaryData (freshSummary db eid y m u n)
          (computeTotals (activeRulesFor db eid) (closedSalesFor db eid sd ed))
          (activeLeadsCount db eid) n) := by
  simp [recompute, hempty, hmr]

theorem isEmpty_map_eq {α β : Type} (f : α → β) (l : List α) :
    (l.map f).isEmpty = l.isEmpty := by
  cases l <;> rfl

theorem activeRulesFor_setWindow (db : DB)
    (f : EmployeeCommissionRule → Int × Option Int) (eid : Nat) :
    activeRulesFor { db with rules := db.rules.map (setRuleWindow f) } eid =
      (activeRulesFor db eid).map (setRuleWindow f) := by
  show (db.rules.map (setRuleWindow f)).filter _ = _
  rw [List.filter_map]
  rfl

theorem findApplicableRule_setWindow (f : EmployeeCommissionRule → Int × Option Int)
    (l : List EmployeeCommissionRule) (s : Sale) :
    findApplicableRule (l.map (setRuleWindow f)) s =
      (findApplicableRule l s).map (setRuleWindow f) := by
  rw [findApplicableRule, findApplicableRule, List.find?_map]
  rfl

theorem processSale_setWindow (f : EmployeeCommissionRule → Int × Option Int)
    (l : List EmployeeCommissionRule) (st : SaleLoopState) (s : Sale) :
    processSale (l.map (setRuleWindow f)) st s = processSale l st s := by
  simp only [processSale, findApplicableRule_setWindow]
  cases findApplicableRule l s <;> rfl

theorem processSales_setWindow (f : EmployeeCommissionRule → Int × Option Int)
    (l : List EmployeeCommissionRule) (sales : List Sale) :
    processSales (l.map (setRuleWindow f)) sales = processSales l sales := by
  rw [processSales, processSales]
  have h : ∀ (st : SaleLoopState) (ss : List Sale),
      ss.foldl (processSale (l.map (setRuleWindow f))) st =
        ss.foldl (processSale l) st := by
    intro st ss
    induction ss generalizing st with
    | nil => rfl
    | cons s rest ih => simp [processSale_setWindow, ih]
  exact h _ sales

theorem tierBonus_setWindow (f : EmployeeCommissionRule → Int × Option Int)
    (l : List EmployeeCommissionRule) (total : ℚ) :
    tierBonus (l.map (setRuleWindow f)) total = tierBonus l total := by
  rw [tierBonus, tierBonus, List.foldl_map]
  rfl

theorem computeTotals_setWindow (f : EmployeeCommissionRule → Int × Option Int)
    (l : List EmployeeCommissionRule) (sales : List Sale) :
    computeTotals (l.map (setRuleWindow f)) sales = computeTotals l sales := by
  simp only [computeTotals, processSales_setWindow, tierBonus_setWindow]

theorem recompute_setWindow (db : DB)
    (f : EmployeeCommissionRule → Int × Option Int) (eid : Nat) (y m : Int)
    (ex : Option MonthlyCommissionSummary) (u n : Nat) :
    (recompute { db with rules := db.rules.map (setRuleWindow f) }
        eid y m ex u n).map calcView =
      (recompute db eid y m ex u n).map calcView := by
  cases hempty : (activeRulesFor db eid).isEmpty with
  | true =>
    have hWe : (activeRulesFor { db with rules := db.rules.map (setRuleWindow f) }
        eid).isEmpty = true := by
      rw [activeRulesFor_setWindow, isEmpty_map_eq]
      exact hempty
    rw [recompute_rules_empty _ _ _ _ _ u n hWe,
      recompute_rules_empty _ _ _ _ _ u n hempty]
  | false =>
    have hWe : (activeRulesFor { db with rules := db.rules.map (setRuleWindow f) }
        eid).isEmpty = false := by
      rw [activeRulesFor_setWindow, isEmpty_map_eq]
      exact hempty
    cases hmr : monthRange y m with
    | none =>
      rw [recompute_bad_range _ _ _ _ _ u n hWe hmr,
        recompute_bad_range _ _ _ _ _ u n hempty hmr]
    | some rng =>
      obtain ⟨sd, ed⟩ := rng
      cases ex with
      | some e =>
        rw [recompute_update_eq _ _ _ _ e u n sd ed hWe hmr,
          recompute_update_eq db eid y m e u n sd ed hempty hmr,
          activeRulesFor_setWindow, computeTotals_setWindow]
        rfl
      | none =>
        rw [recompute_insert_eq _ _ _ _ u n sd ed hWe hmr,
          recompute_insert_eq db eid y m u n sd ed hempty hmr,
          activeRulesFor_setWindow, computeTotals_setWindow]
        rfl

theorem upsert_map_invariants (l : List MonthlyCommissionSummary)
    (e S : MonthlyCommissionSummary) (hemem : e ∈ l)
    (hids : (l.map MonthlyCommissionSummary.id).Nodup)
    (hSid : S.id = e.id) (hSkey : summaryKey S = summaryKey e) :
    (l.map (fun s => if s.id == e.id then S else s)).map MonthlyCommissionSummary.id
      = l.map MonthlyCommissionSummary.id ∧
    (l.map (fun s => if s.id == e.id then S else s)).map summaryKey
      = l.map summaryKey := by
  constructor <;> rw [List.map_map] <;> apply List.map_congr_left
  · intro s _
    by_cases h : s.id = e.id <;> simp [Function.comp, h, hSid]
  · intro s hsmem
    by_cases h : s.id = e.id
    · have hse : s = e := List.inj_on_of_nodup_map hids hsmem hemem h
      subst hse
      simp [Function.comp, hSkey]
    · simp [Function.comp, h]

theorem append_fresh_invariants (l : List MonthlyCommissionSummary)
    (S : MonthlyCommissionSummary) (next : Nat)
    (hids : (l.map MonthlyCommissionSummary.id).Nodup)
    (hkeys : (l.map summaryKey).Nodup)
    (hfresh : ∀ t ∈ l, t.id < next)
    (hSid : S.id = next)
    (hnk : ∀ t ∈ l, summaryKey t ≠ summaryKey S) :
    ((l ++ [S]).map MonthlyCommissionSummary.id).Nodup ∧
    ((l ++ [S]).map summaryKey).Nodup ∧
    (∀ t ∈ l ++ [S], t.id < next + 1) := by
  refine ⟨?_, ?_, ?_⟩
  · rw [List.map_append, List.nodup_append]
    refine ⟨hids, List.nodup_singleton _, ?_⟩
    intro a ha hb
    obtain ⟨t, htm, rfl⟩ := List.mem_map.mp ha
    have hteq : t.id = S.id := by simpa using hb
    rw [hSid] at hteq
    exact absurd hteq (Nat.ne_of_lt (hfresh t htm))
  · rw [List.map_append, List.nodup_append]
    refine ⟨hkeys, List.nodup_singleton _, ?_⟩
    intro a ha hb
    obtain ⟨t, htm, rfl⟩ := List.mem_map.mp ha
    have hteq : summaryKey t = summaryKey S := by simpa using hb
    exact hnk t htm hteq
  · intro t ht
    rcases List.mem_append.mp ht with htm | htm
    · exact Nat.lt_succ_of_lt (hfresh t htm)
    · rw [List.mem_singleton.mp htm, hSid]
      exact Nat.lt_succ_self _

theorem monthRange_none_of_bad_month (y m : Int) (hm : m < 1 ∨ 12 < m) :
    monthRange y m = none := by
  have h1 : dateMk y m 1 = none := by
    rw [dateMk, if_neg]
    rintro ⟨-, -, h3, h4, -⟩
    rcases hm with h | h
    · omega
    · omega
  simp [monthRange, h1]

theorem foldl_pyJoin_range (k : PyNumKind) (n : Nat) :
    (List.range n).foldl (fun a _ => pyJoin a k) PyNumKind.intK =
      if n = 0 then PyNumKind.intK else k := by
  induction n with
  | zero => rfl
  | succ j ih =>
    rw [List.range_succ, List.foldl_append, ih]
    cases j <;> cases k <;> rfl

theorem baseCommissionKind_eq (m : Nat) :
    baseCommissionKind m =
      if m = 0 then PyNumKind.intK else PyNumKind.decimalK :=
  foldl_pyJoin_range perSaleCommissionKind m

theorem tierBonusKind_eq (m : Nat) :
    tierBonusKind m =
      if m = 0 then PyNumKind.intK else PyNumKind.decimalK :=
  foldl_pyJoin_range (pyJoin (pyJoin .decimalK .decimalK) .intK) m

theorem breakdownAmountKind_eq (n : Nat) :
    breakdownAmountKind n =
      if n = 0 then PyNumKind.intK else PyNumKind.floatK :=
  foldl_pyJoin_range .floatK n

/-! ## Claim theorems -/

/-- C3: when a summary already exists for (employee, year, month) and
`recalculate` is false, `calculate_monthly_commission` returns exactly
that summary with the database unchanged (no sale or summary write), and
a second identical call returns the identical result. -/
theorem c3_existing_summary_idempotent (db : DB)
    (req : CommissionCalculationRequest) (s : MonthlyCommissionSummary)
    (u1 n1 u2 n2 : Nat)
    (hemp : db.users.contains req.employee_id = true)
    (hsum : findSummary db req.employee_id req.year req.month = some s)
    (hrec : req.recalculate = false) :
    calculate_monthly_commission db req u1 n1 = .ok (db, s) ∧
    runCalc db req u1 n1 = (db, .ok s) ∧
    runCalc db req u2 n2 = runCalc db req u1 n1 := by
  have hemp' : req.employee_id ∈ db.users := by simpa using hemp
  have hc : ∀ u n : Nat, calculate_monthly_commission db req u n = .ok (db, s) := by
    intro u n
    simp [calculate_monthly_commission, hemp', hsum, hrec]
  exact ⟨hc u1 n1, by simp [runCalc, hc], by simp [runCalc, hc]⟩

/-- Witness for C3 on the concrete fixture database. -/
theorem c3_existing_summary_idempotent_witness :
    calculate_monthly_commission exDBWithSummary exReq 9 7 =
      .ok (exDBWithSummary, exSummary) ∧
    runCalc exDBWithSummary exReq 9 7 = (exDBWithSummary, .ok exSummary) ∧
    runCalc exDBWithSummary exReq 9 8 = runCalc exDBWithSummary exReq 9 7 :=
  c3_existing_summary_idempotent exDBWithSummary exReq exSummary 9 7 9 8
    (by decide) (by decide) (by decide)

/-- C5: an existing employee with zero active commission rules makes the
calculation fail with the InvalidState error (HTTP 400) on every path
that recomputes (no pre-existing summary, or `recalculate` set), and the
database is unchanged. -/
theorem c5_no_rules_invalid_state (db : DB)
    (req : CommissionCalculationRequest) (u n : Nat)
    (hemp : db.users.contains req.employee_id = true)
    (hrules : activeRulesFor db req.employee_id = [])
    (hpath : findSummary db req.employee_id req.year req.month = none ∨
      req.recalculate = true) :
    runCalc db req u n = (db, .error .invalidState) ∧
    calculate_monthly_commission db req u n = .error .invalidState := by
  have hre : ∀ ex, recompute db req.employee_id req.year req.month ex u n =
      .error .invalidState := by
    intro ex
    simp [recompute, hrules]
  have hemp' : req.employee_id ∈ db.users := by simpa using hemp
  have hcalc : calculate_monthly_commission db req u n = .error .invalidState := by
    rcases hpath with hnone | hrec
    · simp [calculate_monthly_commission, hemp', hnone, hre]
    · cases hfind : findSummary db req.employee_id req.year req.month <;>
        simp [calculate_monthly_commission, hemp', hfind, hrec, hre]
  exact ⟨by simp [runCalc, hcalc], hcalc⟩

/-- Witness for C5: employee 1 exists but has no rules. -/
theorem c5_no_rules_invalid_state_witness :
    runCalc { exDB with rules := [] } exReq 9 7 =
      ({ exDB with rules := [] }, .error .invalidState) ∧
    calculate_monthly_commission { exDB with rules := [] } exReq 9 7 =
      .error .invalidState :=
  c5_no_rules_invalid_state { exDB with rules := [] } exReq 9 7
    (by decide) (by decide) (Or.inl (by decide))

/-- C1: the applicable rule of a sale is the first rule in iteration
order whose `sale_type` is null or equal to the sale's type and whose
`min_sale_amount` is at most the sale's amount; every matched sale adds
`sale_amount * base_commission_rate / 100` to `base_commission` and ends
up with its `commission_amount` set to that value and its
`commission_status` set to `calculated`, while an unmatched sale
contributes zero and is left unchanged. -/
theorem c1_first_matching_rule_commission
    (commission_rules : List EmployeeCommissionRule) (closed_sales : List Sale)
    (hids : (closed_sales.map Sale.id).Nodup) :
    (∀ s : Sale, findApplicableRule commission_rules s =
      commission_rules.find? (fun r =>
        decide ((r.sale_type = none ∨ r.sale_type = some s.sale_type) ∧
          r.min_sale_amount ≤ s.sale_amount))) ∧
    (processSales commission_rules closed_sales).base_commission =
      (closed_sales.map (saleContribution commission_rules)).sum ∧
    applySaleUpdates closed_sales
        (processSales commission_rules closed_sales).saleUpdates =
      closed_sales.map (applyRuleCommission commission_rules) := by
  refine ⟨?_, processSales_base_commission commission_rules closed_sales, ?_⟩
  · intro s
    unfold findApplicableRule
    congr 1
    funext r
    rw [Bool.eq_iff_iff]
    simp only [decide_eq_true_eq]
    exact ruleMatches_iff r s
  · rw [processSales_updates,
      applySaleUpdates_pointwise _ _ (updates_fst_nodup commission_rules closed_sales hids)]
    apply List.map_congr_left
    intro s hsmem
    cases hf : findApplicableRule commission_rules s with
    | some r =>
      have hmem : (s.id, s.sale_amount * r.base_commission_rate / 100) ∈
          closed_sales.filterMap (saleUpd commission_rules) :=
        List.mem_filterMap.mpr ⟨s, hsmem, by simp [saleUpd, hf]⟩
      have hisSome : ((closed_sales.filterMap (saleUpd commission_rules)).find?
          (fun u => u.1 == s.id)).isSome := by
        rw [List.find?_isSome]
        exact ⟨_, hmem, by simp⟩
      cases hfind : (closed_sales.filterMap (saleUpd commission_rules)).find?
          (fun u => u.1 == s.id) with
      | none => rw [hfind] at hisSome; exact absurd hisSome (by simp)
      | some u =>
        obtain ⟨s', hs'mem, hs'upd⟩ :=
          List.mem_filterMap.mp (List.mem_of_find?_eq_some hfind)
        have hid1 : u.1 = s'.id := saleUpd_fst commission_rules s' u hs'upd
        have hid2 : u.1 = s.id := by simpa using List.find?_some hfind
        have hss' : s' = s :=
          List.inj_on_of_nodup_map hids hs'mem hsmem (by rw [← hid1, hid2])
        subst hss'
        rw [saleUpd, hf] at hs'upd
        simp only [Option.map_some'] at hs'upd
        rw [← Option.some.inj hs'upd]
        simp [applyRuleCommission, hf]
    | none =>
      have hfind : (closed_sales.filterMap (saleUpd commission_rules)).find?
          (fun u => u.1 == s.id) = none := by
        rw [List.find?_eq_none]
        intro u humem hupred
        obtain ⟨s', hs'mem, hs'upd⟩ := List.mem_filterMap.mp humem
        have hid1 : u.1 = s'.id := saleUpd_fst commission_rules s' u hs'upd
        have hss' : s' = s :=
          List.inj_on_of_nodup_map hids hs'mem hsmem
            (by rw [← hid1]; simpa using hupred)
        subst hss'
        rw [saleUpd, hf] at hs'upd
        exact absurd hs'upd (by simp)
      simp [hfind, applyRuleCommission, hf]

/-- Witness for C1: one matched sale (1000 against a 10% rule with
minimum 500) and one unmatched sale (100, below the minimum). -/
theorem c1_first_matching_rule_commission_witness :
    findApplicableRule [exRuleBase] exSale1000 =
      [exRuleBase].find? (fun r =>
        decide ((r.sale_type = none ∨ r.sale_type = some exSale1000.sale_type) ∧
          r.min_sale_amount ≤ exSale1000.sale_amount)) ∧
    (processSales [exRuleBase] [exSale1000, exSale100]).base_commission =
      ([exSale1000, exSale100].map (saleContribution [exRuleBase])).sum ∧
    applySaleUpdates [exSale1000, exSale100]
        (processSales [exRuleBase] [exSale1000, exSale100]).saleUpdates =
      [exSale1000, exSale100].map (applyRuleCommission [exRuleBase]) := by
  have h := c1_first_matching_rule_commission [exRuleBase] [exSale1000, exSale100]
    (by decide)
  exact ⟨h.1 exSale1000, h.2.1, h.2.2⟩

/-- C2: with every configured tier threshold positive (so that Python
truthiness coincides with presence), the tier bonus is the sum, over
every active rule and each of its present tiers whose threshold the
monthly total meets, of `total_sales_amount * bonus_rate / 100` — tiers
are additive across the tiers of one rule and across rules. -/
theorem c2_tier_bonus_additive (commission_rules : List EmployeeCommissionRule)
    (total_sales_amount : ℚ)
    (hpos : ∀ r ∈ commission_rules, ∀ t : ℚ,
      (r.tier1_threshold = some t ∨ r.tier2_threshold = some t ∨
        r.tier3_threshold = some t) → 0 < t) :
    tierBonus commission_rules total_sales_amount =
      tierBonusSpec commission_rules total_sales_amount := by
  have H : ∀ (l : List EmployeeCommissionRule),
      (∀ r ∈ l, ∀ t : ℚ,
        (r.tier1_threshold = some t ∨ r.tier2_threshold = some t ∨
          r.tier3_threshold = some t) → 0 < t) →
      ∀ acc : ℚ, l.foldl (tierStep total_sales_amount) acc =
        acc + (l.map (fun r =>
          tierPartSpec r.tier1_threshold r.tier1_bonus_rate total_sales_amount +
            tierPartSpec r.tier2_threshold r.tier2_bonus_rate total_sales_amount +
            tierPartSpec r.tier3_threshold r.tier3_bonus_rate total_sales_amount)).sum := by
    intro l
    induction l with
    | nil => intro _ acc; simp
    | cons r rest ih =>
      intro hl acc
      have hr := hl r (List.mem_cons_self r rest)
      simp only [List.foldl_cons, List.map_cons, List.sum_cons]
      rw [ih (fun r' hr' => hl r' (List.mem_cons_of_mem _ hr')), tierStep_split,
        tierPart_eq_spec r.tier1_threshold r.tier1_bonus_rate total_sales_amount
          (fun t ht => hr t (Or.inl ht)),
        tierPart_eq_spec r.tier2_threshold r.tier2_bonus_rate total_sales_amount
          (fun t ht => hr t (Or.inr (Or.inl ht))),
        tierPart_eq_spec r.tier3_threshold r.tier3_bonus_rate total_sales_amount
          (fun t ht => hr t (Or.inr (Or.inr ht)))]
      ring
  simpa [tierBonus, tierBonusSpec] using H commission_rules hpos 0

/-- Witness for C2: the spec's worked example — thresholds
10000/20000/30000 with rates 2/3/5 and a 25000 total yield
25000×2% + 25000×3% = 1250 (tier 3 contributes nothing). -/
theorem c2_tier_bonus_additive_witness :
    tierBonus [exRuleTiered] 25000 = tierBonusSpec [exRuleTiered] 25000 ∧
    tierBonus [exRuleTiered] 25000 = 25000 * (2 : ℚ) / 100 + 25000 * 3 / 100 := by
  have hpos : ∀ r ∈ [exRuleTiered], ∀ t : ℚ,
      (r.tier1_threshold = some t ∨ r.tier2_threshold = some t ∨
        r.tier3_threshold = some t) → 0 < t := by
    intro r hr t ht
    have hr' : r = exRuleTiered := by simpa using hr
    subst hr'
    rcases ht with h1 | h2 | h3
    · have : t = 10000 := by
        simpa [exRuleTiered] using h1.symm
      subst this; norm_num
    · have : t = 20000 := by
        simpa [exRuleTiered] using h2.symm
      subst this; norm_num
    · have : t = 30000 := by
        simpa [exRuleTiered] using h3.symm
      subst this; norm_num
  have h := c2_tier_bonus_additive [exRuleTiered] 25000 hpos
  refine ⟨h, ?_⟩
  rw [h]
  norm_num [tierBonusSpec, tierPartSpec, exRuleTiered, exRuleBase]

/-- C6 counterexample: a request with month 13 passes schema validation
(the pydantic model has no range constraint), and the endpoint then runs
its queries rather than rejecting — with the employee missing the
outcome is the NotFound error of the employee query, and with the
employee and a rule present it is the uncontrolled `ValueError` of the
`date` constructor, not a ValidationError. -/
theorem c6_counterexample :
    requestValidate exReqMonth13 = some exReqMonth13 ∧
    runCalc exDBNoEmployee exReqMonth13 9 0 =
      (exDBNoEmployee, .error .notFound) ∧
    runCalc exDB exReqMonth13 9 0 = (exDB, .error .valueError) ∧
    CalcError.valueError ≠ CalcError.notFound := by
  refine ⟨rfl, by rfl, by rfl, by decide⟩

/-- C6 amended: an out-of-range month is not rejected by validation —
the request passes the schema, and on every recomputing path with an
existing employee and at least one active rule the calculation aborts
with the uncontrolled `ValueError` raised by the date-range computation
(after the employee, summary and rule queries, before any sales query),
leaving the database unchanged. -/
theorem c6_amended_month_not_validated (db : DB)
    (req : CommissionCalculationRequest) (u n : Nat)
    (hm : req.month < 1 ∨ 12 < req.month)
    (hemp : db.users.contains req.employee_id = true)
    (hpath : findSummary db req.employee_id req.year req.month = none ∨
      req.recalculate = true)
    (hrules : (activeRulesFor db req.employee_id).isEmpty = false) :
    requestValidate req = some req ∧
    runCalc db req u n = (db, .error .valueError) := by
  refine ⟨rfl, ?_⟩
  have hmr := monthRange_none_of_bad_month req.year req.month hm
  have hre : ∀ ex, recompute db req.employee_id req.year req.month ex u n =
      .error .valueError :=
    fun ex => recompute_bad_range db _ _ _ ex u n hrules hmr
  have hemp' : req.employee_id ∈ db.users := by simpa using hemp
  have hcalc : calculate_monthly_commission db req u n = .error .valueError := by
    rcases hpath with hnone | hrec
    · simp [calculate_monthly_commission, hemp', hnone, hre]
    · cases hfind : findSummary db req.employee_id req.year req.month <;>
        simp [calculate_monthly_commission, hemp', hfind, hrec, hre]
  simp [runCalc, hcalc]

/-- Witness for the amended C6 on the fixture database. -/
theorem c6_amended_month_not_validated_witness :
    requestValidate exReqMonth13 = some exReqMonth13 ∧
    runCalc exDB exReqMonth13 9 0 = (exDB, .error .valueError) :=
  c6_amended_month_not_validated exDB exReqMonth13 9 0
    (Or.inr (by decide)) (by decide) (Or.inl (by decide)) (by decide)

/-- C7 counterexample: a breakdown bucket's amounts are accumulated with
`float(...)` conversions, so after one contributing sale their Python
type is binary float, not Decimal — monetary arithmetic is not performed
exclusively in fixed-point decimal. -/
theorem c7_counterexample :
    breakdownAmountKind 1 = PyNumKind.floatK ∧
    PyNumKind.floatK ≠ PyNumKind.decimalK := by
  decide

/-- C7 amended: the per-sale commission, `base_commission`, `tier_bonus`
and `total_commission` are computed in `Decimal` (or remain the exact int
0 when nothing accumulates) and never in binary float, with percentages
divided by 100 at the point of use — but the per-sale-type breakdown
amounts are converted to binary float by explicit `float(...)` calls. -/
theorem c7_amended_decimal_except_breakdown (matched hits bn : Nat) :
    perSaleCommissionKind = PyNumKind.decimalK ∧
    baseCommissionKind matched ≠ PyNumKind.floatK ∧
    tierBonusKind hits ≠ PyNumKind.floatK ∧
    totalCommissionKind matched hits ≠ PyNumKind.floatK ∧
    (1 ≤ bn → breakdownAmountKind bn = PyNumKind.floatK) := by
  refine ⟨rfl, ?_, ?_, ?_, ?_⟩
  · rw [baseCommissionKind_eq]
    split_ifs <;> decide
  · rw [tierBonusKind_eq]
    split_ifs <;> decide
  · rw [totalCommissionKind, baseCommissionKind_eq, tierBonusKind_eq]
    split_ifs <;> decide
  · intro h
    rw [breakdownAmountKind_eq, if_neg (by omega)]

/-- Witness for the amended C7 at one matched sale, one hit tier and one
breakdown contribution. -/
theorem c7_amended_decimal_except_breakdown_witness :
    perSaleCommissionKind = PyNumKind.decimalK ∧
    baseCommissionKind 1 ≠ PyNumKind.floatK ∧
    tierBonusKind 1 ≠ PyNumKind.floatK ∧
    totalCommissionKind 1 1 ≠ PyNumKind.floatK ∧
    (1 ≤ 1 → breakdownAmountKind 1 = PyNumKind.floatK) :=
  c7_amended_decimal_except_breakdown 1 1 1

/-- C8: a closed-won sale of the month whose amount is below the minimum
of every rule matching its type gets no applicable rule, contributes zero
to `base_commission` (removing it leaves the base commission unchanged),
yet its amount is a summand of `total_sales_amount` and it is counted in
`closed_deals_count`. -/
theorem c8_below_minimum_counted_not_commissioned
    (commission_rules : List EmployeeCommissionRule) (closed_sales : List Sale)
    (s : Sale) (hs : s ∈ closed_sales)
    (hbelow : ∀ r ∈ commission_rules,
      (r.sale_type = none ∨ r.sale_type = some s.sale_type) →
        s.sale_amount < r.min_sale_amount) :
    findApplicableRule commission_rules s = none ∧
    saleContribution commission_rules s = 0 ∧
    (computeTotals commission_rules closed_sales).base_commission =
      (computeTotals commission_rules (closed_sales.erase s)).base_commission ∧
    (computeTotals commission_rules closed_sales).total_sales_amount =
      s.sale_amount +
        (computeTotals commission_rules (closed_sales.erase s)).total_sales_amount ∧
    (computeTotals commission_rules closed_sales).closed_deals_count =
      (computeTotals commission_rules (closed_sales.erase s)).closed_deals_count + 1 := by
  have hfind : findApplicableRule commission_rules s = none := by
    rw [findApplicableRule, List.find?_eq_none]
    intro r hr hmatch
    obtain ⟨hty, hle⟩ := (ruleMatches_iff r s).mp hmatch
    exact absurd hle (not_le.mpr (hbelow r hr hty))
  have hcontrib : saleContribution commission_rules s = 0 := by
    simp [saleContribution, hfind]
  have hperm : closed_sales.Perm (s :: closed_sales.erase s) :=
    List.perm_cons_erase hs
  refine ⟨hfind, hcontrib, ?_, ?_, ?_⟩
  · rw [computeTotals_base, computeTotals_base, processSales_base_commission,
      processSales_base_commission,
      (hperm.map (saleContribution commission_rules)).sum_eq]
    simp [hcontrib]
  · rw [computeTotals_total, computeTotals_total, (hperm.map Sale.sale_amount).sum_eq]
    simp
  · rw [computeTotals_count, computeTotals_count, hperm.length_eq]
    simp [Nat.add_comm]

/-- Witness for C8: a sale of 100 against a single rule with minimum 500. -/
theorem c8_below_minimum_counted_not_commissioned_witness :
    findApplicableRule [exRuleBase] exSale100 = none ∧
    saleContribution [exRuleBase] exSale100 = 0 ∧
    (computeTotals [exRuleBase] [exSale100]).base_commission =
      (computeTotals [exRuleBase] ([exSale100].erase exSale100)).base_commission ∧
    (computeTotals [exRuleBase] [exSale100]).total_sales_amount =
      exSale100.sale_amount +
        (computeTotals [exRuleBase] ([exSale100].erase exSale100)).total_sales_amount ∧
    (computeTotals [exRuleBase] [exSale100]).closed_deals_count =
      (computeTotals [exRuleBase] ([exSale100].erase exSale100)).closed_deals_count + 1 :=
  c8_below_minimum_counted_not_commissioned [exRuleBase] [exSale100] exSale100
    (List.mem_singleton_self exSale100)
    (by
      intro r hr _
      have hr' : r = exRuleBase := by simpa using hr
      subst hr'
      norm_num [exSale100, exSale1000, exRuleBase])

/-- C4: starting from a database whose summary rows have distinct primary
keys below the id counter and at most one row per (employee, year, month),
any successful `calculate_monthly_commission` call preserves all three
invariants; when a summary already existed for the key the row count is
unchanged (in-place update), and a new row appears exactly when none
existed. -/
theorem c4_upsert_single_row (db : DB) (req : CommissionCalculationRequest)
    (u n : Nat) (db' : DB) (sm : MonthlyCommissionSummary)
    (hids : (db.summaries.map MonthlyCommissionSummary.id).Nodup)
    (hfresh : ∀ t ∈ db.summaries, t.id < db.next_summary_id)
    (hkey : atMostOnePerKey db.summaries)
    (hok : calculate_monthly_commission db req u n = .ok (db', sm)) :
    atMostOnePerKey db'.summaries ∧
    (db'.summaries.map MonthlyCommissionSummary.id).Nodup ∧
    (∀ t ∈ db'.summaries, t.id < db'.next_summary_id) ∧
    (findSummary db req.employee_id req.year req.month ≠ none →
      db'.summaries.length = db.summaries.length) ∧
    (findSummary db req.employee_id req.year req.month = none →
      db'.summaries.length = db.summaries.length + 1) := by
  by_cases hemp : req.employee_id ∈ db.users
  case neg =>
    rw [calculate_monthly_commission, if_neg (by simpa using hemp)] at hok
    exact absurd hok (by simp)
  rw [calculate_monthly_commission, if_pos (by simpa using hemp)] at hok
  cases hfind : findSummary db req.employee_id req.year req.month with
  | some e =>
    rw [hfind] at hok
    have hemem : e ∈ db.summaries := findSummary_mem db _ _ _ e hfind
    cases hrec : req.recalculate with
    | false =>
      rw [hrec] at hok
      replace hok : Except.ok (db, e) = Except.ok (db', sm) := hok
      simp only [Except.ok.injEq, Prod.mk.injEq] at hok
      obtain ⟨hdb', hsm⟩ := hok
      subst hdb'
      exact ⟨hkey, hids, hfresh, fun _ => rfl, fun hc => Option.noConfusion hc⟩
    | true =>
      rw [hrec] at hok
      replace hok : recompute db req.employee_id req.year req.month (some e) u n =
        Except.ok (db', sm) := hok
      cases hempty : (activeRulesFor db req.employee_id).isEmpty with
      | true =>
        rw [recompute_rules_empty db _ _ _ _ u n hempty] at hok
        exact absurd hok (by simp)
      | false =>
        cases hmr : monthRange req.year req.month with
        | none =>
          rw [recompute_bad_range db _ _ _ _ u n hempty hmr] at hok
          exact absurd hok (by simp)
        | some rng =>
          obtain ⟨sd, ed⟩ := rng
          rw [recompute_update_eq db req.employee_id req.year req.month e u n sd ed
            hempty hmr] at hok
          simp only [Except.ok.injEq, Prod.mk.injEq] at hok
          obtain ⟨hdb', hsm⟩ := hok
          subst hdb'
          obtain ⟨hidL, hkeyL⟩ := upsert_map_invariants db.summaries e
            (setSummaryData e
              (computeTotals (activeRulesFor db req.employee_id)
                (closedSalesFor db req.employee_id sd ed))
              (activeLeadsCount db req.employee_id) n)
            hemem hids rfl rfl
          refine ⟨?_, ?_, ?_, fun _ => by simp, fun hc => Option.noConfusion hc⟩
          · show ((db.summaries.map _).map summaryKey).Nodup
            rw [hkeyL]
            exact hkey
          · show ((db.summaries.map _).map MonthlyCommissionSummary.id).Nodup
            rw [hidL]
            exact hids
          · intro t ht
            obtain ⟨s, hsmem, rfl⟩ := List.mem_map.mp ht
            show (if s.id == e.id then _ else s).id < db.next_summary_id
            by_cases h : s.id = e.id
            · rw [if_pos (by simpa using h), setSummaryData_id, ← h]
              exact hfresh s hsmem
            · rw [if_neg (by simpa using h)]
              exact hfresh s hsmem
  | none =>
    rw [hfind] at hok
    replace hok : recompute db req.employee_id req.year req.month none u n =
      Except.ok (db', sm) := hok
    cases hempty : (activeRulesFor db req.employee_id).isEmpty with
    | true =>
      rw [recompute_rules_empty db _ _ _ _ u n hempty] at hok
      exact absurd hok (by simp)
    | false =>
      cases hmr : monthRange req.year req.month with
      | none =>
        rw [recompute_bad_range db _ _ _ _ u n hempty hmr] at hok
        exact absurd hok (by simp)
      | some rng =>
        obtain ⟨sd, ed⟩ := rng
        rw [recompute_insert_eq db req.employee_id req.year req.month u n sd ed
          hempty hmr] at hok
        simp only [Except.ok.injEq, Prod.mk.injEq] at hok
        obtain ⟨hdb', hsm⟩ := hok
        subst hdb'
        obtain ⟨hidN, hkeyN, hltN⟩ := append_fresh_invariants db.summaries
          (setSummaryData (freshSummary db req.employee_id req.year req.month u n)
            (computeTotals (activeRulesFor db req.employee_id)
              (closedSalesFor db req.employee_id sd ed))
            (activeLeadsCount db req.employee_id) n)
          db.next_summary_id hids hkey hfresh rfl
          (fun t htm hk => findSummary_none_key db _ _ _ hfind t htm hk)
        exact ⟨hkeyN, hidN, hltN, fun hne => absurd rfl hne, fun _ => by simp⟩

unseal Rat.add Rat.mul Rat.sub Rat.inv in
/-- Witness for C4 on the fixture database with a pre-existing summary and
`recalculate` set: the row is updated in place. -/
theorem c4_upsert_single_row_witness :
    atMostOnePerKey exDBAfterRecalc.summaries ∧
    (exDBAfterRecalc.summaries.map MonthlyCommissionSummary.id).Nodup ∧
    (∀ t ∈ exDBAfterRecalc.summaries, t.id < exDBAfterRecalc.next_summary_id) ∧
    (findSummary exDBWithSummary exReqRecalc.employee_id exReqRecalc.year
        exReqRecalc.month ≠ none →
      exDBAfterRecalc.summaries.length = exDBWithSummary.summaries.length) ∧
    (findSummary exDBWithSummary exReqRecalc.employee_id exReqRecalc.year
        exReqRecalc.month = none →
      exDBAfterRecalc.summaries.length = exDBWithSummary.summaries.length + 1) := by
  have hok : calculate_monthly_commission exDBWithSummary exReqRecalc 9 7 =
      .ok (exDBAfterRecalc, exSummaryRecalc) := by rfl
  exact c4_upsert_single_row exDBWithSummary exReqRecalc 9 7 exDBAfterRecalc
    exSummaryRecalc (by decide) (by decide)
    (by show (exDBWithSummary.summaries.map summaryKey).Nodup; decide) hok

/-- C9: the calculator never consults a rule's effective window —
rewriting `effective_from`/`effective_until` of every rule arbitrarily
changes neither the calculation's outcome (error or resulting users,
sales, summaries, id counter and returned summary) nor whether the
at-least-one-active-rule precondition holds, so an active out-of-window
rule counts and contributes exactly like an in-window one. -/
theorem c9_effective_window_ignored (db : DB)
    (req : CommissionCalculationRequest) (u n : Nat)
    (f : EmployeeCommissionRule → Int × Option Int) :
    (calculate_monthly_commission { db with rules := db.rules.map (setRuleWindow f) }
        req u n).map calcView =
      (calculate_monthly_commission db req u n).map calcView ∧
    (activeRulesFor { db with rules := db.rules.map (setRuleWindow f) }
        req.employee_id).isEmpty =
      (activeRulesFor db req.employee_id).isEmpty := by
  refine ⟨?_, by rw [activeRulesFor_setWindow, isEmpty_map_eq]⟩
  rw [calculate_monthly_commission, calculate_monthly_commission]
  have hfindW : findSummary { db with rules := db.rules.map (setRuleWindow f) }
      req.employee_id req.year req.month =
      findSummary db req.employee_id req.year req.month := rfl
  by_cases hemp : db.users.contains req.employee_id = true
  · rw [if_pos hemp, if_pos hemp, hfindW]
    cases hfind : findSummary db req.employee_id req.year req.month with
    | some e =>
      cases hrec : req.recalculate with
      | true =>
        exact recompute_setWindow db f req.employee_id req.year req.month (some e) u n
      | false => rfl
    | none =>
      exact recompute_setWindow db f req.employee_id req.year req.month none u n
  · rw [if_neg hemp, if_neg hemp]

/-- C10: a tier whose threshold is exactly 0 never contributes a bonus —
replacing every zero threshold by an absent (null) threshold leaves the
tier bonus of every rule list unchanged, and the truthiness gate rejects
a zero threshold outright for every total. -/
theorem c10_zero_threshold_is_absent
    (commission_rules : List EmployeeCommissionRule) (total : ℚ) :
    tierBonus (commission_rules.map nullifyZeroThresholds) total =
      tierBonus commission_rules total ∧
    ∀ t : ℚ, tierHit (some 0) t = false := by
  constructor
  · unfold tierBonus
    rw [List.foldl_map]
    exact foldl_tierStep_nullify total commission_rules 0
  · intro t
    simp [tierHit]

end BWCPortal
